import Mathlib

/-!
Verification development for the `SteddockMacdEma200Rsi` trading strategy
(`src/user_data/strategies/SteddockMacdEma200Rsi.py`).

The strategy is a pure transformation over an ordered candle series:
`populate_indicators` appends indicator columns (EMA200, its lag, the MACD
triple with lags, RSI), `populate_entry_trend` sets the `enter_long` column
where the entry mask holds, and `populate_exit_trend` sets the `exit_long`
column where the exit mask holds.

Floating point columns are embedded as `Option ℚ` (`none` models a NaN /
undefined cell).  A dataframe comparison between two columns follows the
pandas semantics used by the source: a comparison with an undefined cell is
`false`.  `df.loc[mask, col] = 1` is modelled by writing `some 1` at the
positions where the mask holds and keeping the previous cell elsewhere.
-/

namespace Steddock

/-- One OHLCV candle row.  The indicator computations of the strategy only
ever read `close`; the remaining fields are carried so that frame claims can
speak about them. -/
structure Candle where
  op : ℚ
  high : ℚ
  low : ℚ
  close : ℚ
  volume : ℚ
deriving DecidableEq, Repr

/-- A dataframe column: one optional rational per row (`none` is NaN). -/
abbrev Col := List (Option ℚ)

/-- The `close` column of a candle list. -/
def closes (cs : List Candle) : List ℚ := cs.map Candle.close

/-- Modelled from the spec: the tail of an exponential moving average.
Given the smoothing factor `k` and the previous EMA value `prev`, folds the
recurrence `ema[t] = k*close[t] + (1-k)*ema[t-1]` over the remaining
inputs (spec §4.1). -/
def emaFrom (k : ℚ) (prev : ℚ) : List ℚ → List ℚ
  | [] => []
  | x :: xs =>
    let e := k * x + (1 - k) * prev
    e :: emaFrom k e xs

/-- Modelled from the spec: the defined values of an `n`-period EMA
(`ta.EMA` is an external TA-Lib routine, not part of this repository).
The first value sits at position `n-1` of the series and is the simple
average of the first `n` inputs (the initial simple-average seeding the
spec §4.1 explicitly allows); later values follow the EMA recurrence with
`k = 2/(n+1)`.  Empty when the series is shorter than `n`. -/
def emaVals (n : ℕ) (xs : List ℚ) : List ℚ :=
  if xs.length < n ∨ n = 0 then []
  else
    let seed := (xs.take n).sum / (n : ℚ)
    seed :: emaFrom (2 / ((n : ℚ) + 1)) seed (xs.drop n)

/-- Modelled from the spec: the `n`-period EMA column — undefined for the
first `n-1` positions, then the values of `emaVals` (spec §3, §4.1). -/
def emaCol (n : ℕ) (xs : List ℚ) : Col :=
  List.replicate (min xs.length (n - 1)) none ++ (emaVals n xs).map some

/-- Modelled from the spec: defined values of the MACD line,
`macd = ema_fast(close) - ema_slow(close)` with the conventional 12/26
periods (spec §4.1); the first value sits at position 25. -/
def macdVals (xs : List ℚ) : List ℚ :=
  List.zipWith (fun a b => a - b) ((emaVals 12 xs).drop 14) (emaVals 26 xs)

/-- Modelled from the spec: the MACD line column (undefined before the slow
EMA is populated). -/
def macdCol (xs : List ℚ) : Col :=
  List.replicate (min xs.length 25) none ++ (macdVals xs).map some

/-- Modelled from the spec: defined values of the MACD signal line, the
9-period EMA of the MACD line (spec §4.1); the first value sits at
position 33. -/
def macdsignalVals (xs : List ℚ) : List ℚ := emaVals 9 (macdVals xs)

/-- Modelled from the spec: the MACD signal column. -/
def macdsignalCol (xs : List ℚ) : Col :=
  List.replicate (min xs.length 33) none ++ (macdsignalVals xs).map some

/-- Cell-wise difference of two columns; undefined when either cell is. -/
def subCols (a b : Col) : Col :=
  List.zipWith
    (fun x y =>
      match x, y with
      | some u, some v => some (u - v)
      | _, _ => none)
    a b

/-- Modelled from the spec: the MACD histogram column,
`macd_hist = macd - macd_signal` (spec §4.1). -/
def macdhistCol (xs : List ℚ) : Col := subCols (macdCol xs) (macdsignalCol xs)

/-- One-step price changes `close[t+1] - close[t]`. -/
def diffs : List ℚ → List ℚ
  | x :: y :: rest => (y - x) :: diffs (y :: rest)
  | _ => []

/-- Wilder smoothing tail: `avg[t] = (avg[t-1]*(n-1) + x[t]) / n`. -/
def wilderFrom (n : ℕ) (prev : ℚ) : List ℚ → List ℚ
  | [] => []
  | x :: xs =>
    let a := (prev * ((n : ℚ) - 1) + x) / (n : ℚ)
    a :: wilderFrom n a xs

/-- Modelled from the spec: Wilder rolling averages over a window of `n`
(spec §4.1, RSI); seeded with the simple average of the first `n` inputs. -/
def wilderAvgs (n : ℕ) (ds : List ℚ) : List ℚ :=
  if ds.length < n ∨ n = 0 then []
  else
    let seed := (ds.take n).sum / (n : ℚ)
    seed :: wilderFrom n seed (ds.drop n)

/-- Modelled from the spec: one RSI value from an average gain and an
average loss: `100 - 100/(1+RS)` with `RS = avg_gain/avg_loss`, and `100`
when `avg_loss = 0` (spec §4.1). -/
def rsiVal (g l : ℚ) : ℚ := if l = 0 then 100 else 100 * g / (g + l)

/-- Positive parts of the one-step changes. -/
def gains (ds : List ℚ) : List ℚ := ds.map (fun d => max d 0)

/-- Negative parts (as magnitudes) of the one-step changes. -/
def losses (ds : List ℚ) : List ℚ := ds.map (fun d => max (-d) 0)

/-- Modelled from the spec: defined values of the `n`-period RSI; the first
value sits at position `n` of the price series. -/
def rsiVals (n : ℕ) (xs : List ℚ) : List ℚ :=
  List.zipWith rsiVal (wilderAvgs n (gains (diffs xs))) (wilderAvgs n (losses (diffs xs)))

/-- Modelled from the spec: the `n`-period RSI column, undefined for the
first `n` positions (spec §3). -/
def rsiCol (n : ℕ) (xs : List ℚ) : Col :=
  List.replicate (min xs.length n) none ++ (rsiVals n xs).map some

/-- pandas `Series.shift(1)`: drop the last cell and prepend an undefined
cell, preserving length. -/
def shiftCol (xs : Col) : Col := (none :: xs).take xs.length

/-- The strategy parameters read by the three `populate_*` methods:
`ema_length`, the two `IntParameter` RSI entry bounds and the `rsi_exit`
threshold. -/
structure Params where
  ema_length : ℕ
  rsi_entry_low : ℚ
  rsi_entry_high : ℚ
  rsi_exit : ℚ
deriving DecidableEq, Repr

/-- The class-level defaults: `ema_length = 200`,
`rsi_entry_low = 45`, `rsi_entry_high = 55`, `rsi_exit = 30`. -/
def defaultParams : Params :=
  { ema_length := 200, rsi_entry_low := 45, rsi_entry_high := 55, rsi_exit := 30 }

/-- The dataframe flowing through the three `populate_*` methods: the candle
rows plus the named indicator and signal columns (a column that has not been
written yet is all-`none`). -/
@[ext]
structure StratFrame where
  candles : List Candle
  ema200 : Col
  ema200_prev : Col
  macd : Col
  macdsignal : Col
  macdhist : Col
  macd_prev : Col
  macdsignal_prev : Col
  rsi : Col
  enter_long : Col
  exit_long : Col
deriving DecidableEq, Repr

/-- The raw dataframe handed to `populate_indicators`: candle rows only, all
derived columns still absent (all-`none`). -/
def initFrame (cs : List Candle) : StratFrame :=
  { candles := cs
    ema200 := List.replicate cs.length none
    ema200_prev := List.replicate cs.length none
    macd := List.replicate cs.length none
    macdsignal := List.replicate cs.length none
    macdhist := List.replicate cs.length none
    macd_prev := List.replicate cs.length none
    macdsignal_prev := List.replicate cs.length none
    rsi := List.replicate cs.length none
    enter_long := List.replicate cs.length none
    exit_long := List.replicate cs.length none }

/-- `populate_indicators` (source lines 50–69): writes `ema200` and its
`shift(1)` copy, the MACD triple with the two `shift(1)` copies, and the
14-period RSI, all recomputed from the `close` column; every other part of
the frame is untouched. -/
def populate_indicators (p : Params) (df : StratFrame) : StratFrame :=
  let xs := closes df.candles
  { df with
    ema200 := emaCol p.ema_length xs
    ema200_prev := shiftCol (emaCol p.ema_length xs)
    macd := macdCol xs
    macdsignal := macdsignalCol xs
    macdhist := macdhistCol xs
    macd_prev := shiftCol (macdCol xs)
    macdsignal_prev := shiftCol (macdsignalCol xs)
    rsi := rsiCol 14 xs }

/-- Cell of a column at row `t` (`none` beyond the end). -/
def colAt (xs : Col) (t : ℕ) : Option ℚ := xs.getD t none

/-- The `close` cell of the frame at row `t`. -/
def closeCol (df : StratFrame) (t : ℕ) : Option ℚ :=
  (df.candles[t]?).map Candle.close

/-- pandas `>` between optional cells: `false` whenever a side is NaN. -/
def optGT (a b : Option ℚ) : Bool :=
  match a, b with
  | some x, some y => decide (y < x)
  | _, _ => false

/-- pandas `<` between optional cells: `false` whenever a side is NaN. -/
def optLT (a b : Option ℚ) : Bool :=
  match a, b with
  | some x, some y => decide (x < y)
  | _, _ => false

/-- pandas `>=` between optional cells: `false` whenever a side is NaN. -/
def optGE (a b : Option ℚ) : Bool :=
  match a, b with
  | some x, some y => decide (y ≤ x)
  | _, _ => false

/-- pandas `<=` between optional cells: `false` whenever a side is NaN. -/
def optLE (a b : Option ℚ) : Bool :=
  match a, b with
  | some x, some y => decide (x ≤ y)
  | _, _ => false

/-- The entry mask of `populate_entry_trend` (source lines 91–103), read off
the source row by row:
`close > ema200 & ema200 > ema200_prev & macd > macdsignal &
macd_prev <= macdsignal_prev & rsi >= rsi_entry_low & rsi <= rsi_entry_high`. -/
def entryCond (p : Params) (df : StratFrame) (t : ℕ) : Bool :=
  optGT (closeCol df t) (colAt df.ema200 t)
    && optGT (colAt df.ema200 t) (colAt df.ema200_prev t)
    && optGT (colAt df.macd t) (colAt df.macdsignal t)
    && optLE (colAt df.macd_prev t) (colAt df.macdsignal_prev t)
    && optGE (colAt df.rsi t) (some p.rsi_entry_low)
    && optLE (colAt df.rsi t) (some p.rsi_entry_high)

/-- `populate_entry_trend` (source lines 71–104):
`dataframe.loc[mask, "enter_long"] = 1` — each row of the `enter_long`
column becomes `1` where the mask holds and keeps its previous cell
elsewhere; nothing else changes. -/
def populate_entry_trend (p : Params) (df : StratFrame) : StratFrame :=
  { df with
    enter_long :=
      (List.range df.candles.length).map fun t =>
        if entryCond p df t then some 1 else colAt df.enter_long t }

/-- The exit mask of `populate_exit_trend` (source lines 115–131):
`(macd < macdsignal & macd_prev >= macdsignal_prev) | rsi < rsi_exit |
close < ema200`. -/
def exitCond (p : Params) (df : StratFrame) (t : ℕ) : Bool :=
  (optLT (colAt df.macd t) (colAt df.macdsignal t)
      && optGE (colAt df.macd_prev t) (colAt df.macdsignal_prev t))
    || optLT (colAt df.rsi t) (some p.rsi_exit)
    || optLT (closeCol df t) (colAt df.ema200 t)

/-- `populate_exit_trend` (source lines 106–132):
`dataframe.loc[mask, "exit_long"] = 1`. -/
def populate_exit_trend (p : Params) (df : StratFrame) : StratFrame :=
  { df with
    exit_long :=
      (List.range df.candles.length).map fun t =>
        if exitCond p df t then some 1 else colAt df.exit_long t }

/-- The whole pipeline as the host runtime drives it: indicators, then the
entry mask, then the exit mask. -/
def runAll (p : Params) (cs : List Candle) : StratFrame :=
  populate_exit_trend p (populate_entry_trend p (populate_indicators p (initFrame cs)))

/-- Spec-side reading of the entry rule (spec §4.2): all four conditions
hold at `t`, each on a defined indicator value. -/
def entrySpec (p : Params) (df : StratFrame) (t : ℕ) : Prop :=
  (∃ c e, closeCol df t = some c ∧ colAt df.ema200 t = some e ∧ e < c)
    ∧ (∃ e ep, colAt df.ema200 t = some e ∧ colAt df.ema200_prev t = some ep ∧ ep < e)
    ∧ (∃ m ms mp msp,
        colAt df.macd t = some m ∧ colAt df.macdsignal t = some ms
          ∧ colAt df.macd_prev t = some mp ∧ colAt df.macdsignal_prev t = some msp
          ∧ ms < m ∧ mp ≤ msp)
    ∧ (∃ r, colAt df.rsi t = some r ∧ p.rsi_entry_low ≤ r ∧ r ≤ p.rsi_entry_high)

/-- Spec-side reading of the exit rule (spec §4.3): at least one of the
three disjuncts holds at `t`, on defined indicator values. -/
def exitSpec (p : Params) (df : StratFrame) (t : ℕ) : Prop :=
  (∃ m ms mp msp,
      colAt df.macd t = some m ∧ colAt df.macdsignal t = some ms
        ∧ colAt df.macd_prev t = some mp ∧ colAt df.macdsignal_prev t = some msp
        ∧ m < ms ∧ msp ≤ mp)
    ∨ (∃ r, colAt df.rsi t = some r ∧ r < p.rsi_exit)
    ∨ (∃ c e, closeCol df t = some c ∧ colAt df.ema200 t = some e ∧ c < e)

/-- A candle whose four prices and volume are all `c` (test data). -/
def mkC (c : ℚ) : Candle := ⟨c, c, c, c, c⟩

/-- A 15-row strictly falling series: every one-step change is a loss, so
the 14-period RSI is defined (and equal to 0) at position 14. -/
def csDown : List Candle :=
  ([100, 99, 98, 97, 96, 95, 94, 93, 92, 91, 90, 89, 88, 87, 86] : List ℚ).map mkC

/-- Truncation of a whole frame to its first `m` rows, column by column. -/
def frameTake (m : ℕ) (df : StratFrame) : StratFrame :=
  { candles := df.candles.take m
    ema200 := df.ema200.take m
    ema200_prev := df.ema200_prev.take m
    macd := df.macd.take m
    macdsignal := df.macdsignal.take m
    macdhist := df.macdhist.take m
    macd_prev := df.macd_prev.take m
    macdsignal_prev := df.macdsignal_prev.take m
    rsi := df.rsi.take m
    enter_long := df.enter_long.take m
    exit_long := df.exit_long.take m }

/-! ### Basic cell lemmas -/

lemma colAt_replicate_none (n t : ℕ) :
    colAt (List.replicate n (none : Option ℚ)) t = none := by
  simp only [colAt, List.getD_eq_getElem?_getD, List.getElem?_replicate]
  split <;> rfl

lemma colAt_of_length_le {xs : Col} {t : ℕ} (h : xs.length ≤ t) :
    colAt xs t = none := by
  simp only [colAt, List.getD_eq_getElem?_getD, List.getElem?_eq_none h]
  rfl

lemma optGT_eq_true {a b : Option ℚ} :
    optGT a b = true ↔ ∃ x y, a = some x ∧ b = some y ∧ y < x := by
  cases a <;> cases b <;> simp [optGT]

lemma optLT_eq_true {a b : Option ℚ} :
    optLT a b = true ↔ ∃ x y, a = some x ∧ b = some y ∧ x < y := by
  cases a <;> cases b <;> simp [optLT]

lemma optGE_eq_true {a b : Option ℚ} :
    optGE a b = true ↔ ∃ x y, a = some x ∧ b = some y ∧ y ≤ x := by
  cases a <;> cases b <;> simp [optGE]

lemma optLE_eq_true {a b : Option ℚ} :
    optLE a b = true ↔ ∃ x y, a = some x ∧ b = some y ∧ x ≤ y := by
  cases a <;> cases b <;> simp [optLE]

/-! ### How the two masks write their signal column -/

lemma enter_colAt (p : Params) (df : StratFrame) (t : ℕ) :
    colAt (populate_entry_trend p df).enter_long t =
      if t < df.candles.length then
        (if entryCond p df t then some 1 else colAt df.enter_long t)
      else none := by
  unfold populate_entry_trend
  rcases Nat.lt_or_ge t df.candles.length with h | h
  · rw [if_pos h]
    simp only [colAt, List.getD_eq_getElem?_getD, List.getElem?_map,
      List.getElem?_range h, Option.map_some]
    rfl
  · rw [if_neg (Nat.not_lt.2 h)]
    exact colAt_of_length_le (by simpa using h)

lemma exit_colAt (p : Params) (df : StratFrame) (t : ℕ) :
    colAt (populate_exit_trend p df).exit_long t =
      if t < df.candles.length then
        (if exitCond p df t then some 1 else colAt df.exit_long t)
      else none := by
  unfold populate_exit_trend
  rcases Nat.lt_or_ge t df.candles.length with h | h
  · rw [if_pos h]
    simp only [colAt, List.getD_eq_getElem?_getD, List.getElem?_map,
      List.getElem?_range h, Option.map_some]
    rfl
  · rw [if_neg (Nat.not_lt.2 h)]
    exact colAt_of_length_le (by simpa using h)

/-! ### The masks are exactly the spec conditions -/

lemma entryCond_eq_true_iff (p : Params) (df : StratFrame) (t : ℕ) :
    entryCond p df t = true ↔ entrySpec p df t := by
  unfold entryCond entrySpec
  constructor
  · intro hcond
    simp only [Bool.and_eq_true] at hcond
    obtain ⟨⟨⟨⟨⟨h1, h2⟩, h3⟩, h4⟩, h5⟩, h6⟩ := hcond
    rw [optGT_eq_true] at h1 h2 h3
    rw [optLE_eq_true] at h4 h6
    rw [optGE_eq_true] at h5
    obtain ⟨c, e, hc, he, hce⟩ := h1
    obtain ⟨e2, ep, he2, hep, hpe⟩ := h2
    obtain ⟨m, ms, hm, hms, hmm⟩ := h3
    obtain ⟨mp, msp, hmp, hmsp, hps⟩ := h4
    obtain ⟨r, lo, hr, hlo, hrlo⟩ := h5
    obtain ⟨r2, hi, hr2, hhi, hrhi⟩ := h6
    obtain rfl : e = e2 := Option.some.inj (he ▸ he2)
    obtain rfl : r = r2 := Option.some.inj (hr ▸ hr2)
    obtain rfl : lo = p.rsi_entry_low := (Option.some.inj hlo).symm
    obtain rfl : hi = p.rsi_entry_high := (Option.some.inj hhi).symm
    exact ⟨⟨c, e, hc, he, hce⟩, ⟨e, ep, he, hep, hpe⟩,
      ⟨m, ms, mp, msp, hm, hms, hmp, hmsp, hmm, hps⟩, ⟨r, hr, hrlo, hrhi⟩⟩
  · rintro ⟨⟨c, e, hc, he, h1⟩, ⟨e2, ep, he2, hep, h2⟩,
      ⟨m, ms, mp, msp, hm, hms, hmp, hmsp, h3, h4⟩, ⟨r, hr, h5, h6⟩⟩
    simp only [Bool.and_eq_true]
    refine ⟨⟨⟨⟨⟨?_, ?_⟩, ?_⟩, ?_⟩, ?_⟩, ?_⟩
    · exact optGT_eq_true.2 ⟨c, e, hc, he, h1⟩
    · exact optGT_eq_true.2 ⟨e2, ep, he2, hep, h2⟩
    · exact optGT_eq_true.2 ⟨m, ms, hm, hms, h3⟩
    · exact optLE_eq_true.2 ⟨mp, msp, hmp, hmsp, h4⟩
    · exact optGE_eq_true.2 ⟨r, p.rsi_entry_low, hr, rfl, h5⟩
    · exact optLE_eq_true.2 ⟨r, p.rsi_entry_high, hr, rfl, h6⟩

lemma exitCond_eq_true_iff (p : Params) (df : StratFrame) (t : ℕ) :
    exitCond p df t = true ↔ exitSpec p df t := by
  unfold exitCond exitSpec
  simp only [Bool.or_eq_true, Bool.and_eq_true]
  constructor
  · rintro ((⟨h1, h2⟩ | h2) | h3)
    · rw [optLT_eq_true] at h1
      rw [optGE_eq_true] at h2
      obtain ⟨m, ms, hm, hms, hmm⟩ := h1
      obtain ⟨mp, msp, hmp, hmsp, hps⟩ := h2
      exact Or.inl ⟨m, ms, mp, msp, hm, hms, hmp, hmsp, hmm, hps⟩
    · rw [optLT_eq_true] at h2
      obtain ⟨r, x, hr, hx, hrx⟩ := h2
      obtain rfl : x = p.rsi_exit := (Option.some.inj hx).symm
      exact Or.inr (Or.inl ⟨r, hr, hrx⟩)
    · rw [optLT_eq_true] at h3
      obtain ⟨c, e, hc, he, hce⟩ := h3
      exact Or.inr (Or.inr ⟨c, e, hc, he, hce⟩)
  · rintro (⟨m, ms, mp, msp, hm, hms, hmp, hmsp, h1, h2⟩ | ⟨r, hr, h⟩ | ⟨c, e, hc, he, h⟩)
    · exact Or.inl (Or.inl ⟨optLT_eq_true.2 ⟨m, ms, hm, hms, h1⟩,
        optGE_eq_true.2 ⟨mp, msp, hmp, hmsp, h2⟩⟩)
    · exact Or.inl (Or.inr (optLT_eq_true.2 ⟨r, p.rsi_exit, hr, rfl, h⟩))
    · exact Or.inr (optLT_eq_true.2 ⟨c, e, hc, he, h⟩)

/-! ### Column lengths -/

lemma emaFrom_length (k q : ℚ) (l : List ℚ) : (emaFrom k q l).length = l.length := by
  induction l generalizing q with
  | nil => rfl
  | cons x xs ih => simp [emaFrom, ih]

lemma emaVals_length (n : ℕ) (xs : List ℚ) (hn : n ≠ 0) :
    (emaVals n xs).length = xs.length + 1 - n := by
  unfold emaVals
  by_cases h : xs.length < n
  · rw [if_pos (Or.inl h)]
    simp only [List.length_nil]
    omega
  · rw [if_neg (by tauto)]
    simp only [List.length_cons, emaFrom_length, List.length_drop]
    omega

lemma macdVals_length (xs : List ℚ) : (macdVals xs).length = xs.length - 25 := by
  unfold macdVals
  rw [List.length_zipWith, List.length_drop, emaVals_length 12 xs (by omega),
    emaVals_length 26 xs (by omega)]
  omega

lemma macdsignalVals_length (xs : List ℚ) :
    (macdsignalVals xs).length = xs.length - 33 := by
  unfold macdsignalVals
  rw [emaVals_length 9 _ (by omega), macdVals_length]
  omega

lemma diffs_length (xs : List ℚ) : (diffs xs).length = xs.length - 1 := by
  induction xs with
  | nil => rfl
  | cons x xs ih =>
    cases xs with
    | nil => rfl
    | cons y rest =>
      simp only [diffs, List.length_cons] at ih ⊢
      omega

lemma wilderFrom_length (n : ℕ) (q : ℚ) (l : List ℚ) :
    (wilderFrom n q l).length = l.length := by
  induction l generalizing q with
  | nil => rfl
  | cons x xs ih => simp [wilderFrom, ih]

lemma wilderAvgs_length (n : ℕ) (ds : List ℚ) (hn : n ≠ 0) :
    (wilderAvgs n ds).length = ds.length + 1 - n := by
  unfold wilderAvgs
  by_cases h : ds.length < n
  · rw [if_pos (Or.inl h)]
    simp only [List.length_nil]
    omega
  · rw [if_neg (by tauto)]
    simp only [List.length_cons, wilderFrom_length, List.length_drop]
    omega

lemma gains_length (ds : List ℚ) : (gains ds).length = ds.length := by
  simp [gains]

lemma losses_length (ds : List ℚ) : (losses ds).length = ds.length := by
  simp [losses]

lemma rsiVals_length (n : ℕ) (xs : List ℚ) (hn : n ≠ 0) :
    (rsiVals n xs).length = xs.length - n := by
  unfold rsiVals
  rw [List.length_zipWith, wilderAvgs_length n _ hn, wilderAvgs_length n _ hn,
    gains_length, losses_length, diffs_length]
  omega

lemma emaCol_length (n : ℕ) (xs : List ℚ) (hn : n ≠ 0) :
    (emaCol n xs).length = xs.length := by
  unfold emaCol
  rw [List.length_append, List.length_replicate, List.length_map,
    emaVals_length n xs hn]
  omega

lemma macdCol_length (xs : List ℚ) : (macdCol xs).length = xs.length := by
  unfold macdCol
  rw [List.length_append, List.length_replicate, List.length_map, macdVals_length]
  omega

lemma macdsignalCol_length (xs : List ℚ) :
    (macdsignalCol xs).length = xs.length := by
  unfold macdsignalCol
  rw [List.length_append, List.length_replicate, List.length_map,
    macdsignalVals_length]
  omega

lemma macdhistCol_length (xs : List ℚ) : (macdhistCol xs).length = xs.length := by
  unfold macdhistCol subCols
  rw [List.length_zipWith, macdCol_length, macdsignalCol_length]
  omega

lemma rsiCol_length (n : ℕ) (xs : List ℚ) (hn : n ≠ 0) :
    (rsiCol n xs).length = xs.length := by
  unfold rsiCol
  rw [List.length_append, List.length_replicate, List.length_map,
    rsiVals_length n xs hn]
  omega

lemma shiftCol_length (xs : Col) : (shiftCol xs).length = xs.length := by
  unfold shiftCol
  rw [List.length_take]
  simp

lemma closes_length (cs : List Candle) : (closes cs).length = cs.length := by
  simp [closes]

/-! ### Facts about the frames appearing in the pipeline -/

lemma indicators_candles (p : Params) (df : StratFrame) :
    (populate_indicators p df).candles = df.candles := rfl

lemma indicators_enter (p : Params) (df : StratFrame) :
    (populate_indicators p df).enter_long = df.enter_long := rfl

lemma indicators_exit (p : Params) (df : StratFrame) :
    (populate_indicators p df).exit_long = df.exit_long := rfl

lemma closeCol_of_length_le {df : StratFrame} {t : ℕ}
    (h : df.candles.length ≤ t) : closeCol df t = none := by
  simp [closeCol, List.getElem?_eq_none h]

/-- Claim C1: over the output of `populate_indicators`, the
`populate_entry_trend` mask sets `enter_long[t]` (to 1) exactly when all
four entry conditions hold at `t` on defined indicator values: price above
EMA200, EMA200 rising, a bullish MACD cross at `t`, and the RSI inside the
inclusive `[rsi_entry_low, rsi_entry_high]` band (so with the default 45/55
band, `rsi = 45` qualifies and any `rsi < 45` does not). -/
theorem entry_signal_iff_conditions (p : Params) (cs : List Candle) (t : ℕ) :
    colAt (populate_entry_trend p (populate_indicators p (initFrame cs))).enter_long t = some 1
      ↔ entrySpec p (populate_indicators p (initFrame cs)) t := by
  rw [enter_colAt]
  by_cases ht : t < (populate_indicators p (initFrame cs)).candles.length
  · rw [if_pos ht]
    by_cases hcond : entryCond p (populate_indicators p (initFrame cs)) t = true
    · rw [if_pos hcond]
      exact iff_of_true rfl ((entryCond_eq_true_iff p _ t).1 hcond)
    · rw [if_neg hcond]
      have hval : colAt (populate_indicators p (initFrame cs)).enter_long t = none := by
        rw [indicators_enter]
        exact colAt_replicate_none _ _
      rw [hval]
      exact iff_of_false (by simp)
        (fun hspec => hcond ((entryCond_eq_true_iff p _ t).2 hspec))
  · rw [if_neg ht]
    refine iff_of_false (by simp) ?_
    rintro ⟨⟨c, e, hc, _, _⟩, _, _, _⟩
    rw [closeCol_of_length_le (Nat.not_lt.1 ht)] at hc
    exact absurd hc (by simp)

/-- Claim C2: over the output of `populate_indicators`, the
`populate_exit_trend` mask sets `exit_long[t]` (to 1) exactly when at least
one of the three exit disjuncts holds at `t` on defined indicator values: a
bearish MACD cross at `t`, `rsi < rsi_exit`, or the close below EMA200. -/
theorem exit_signal_iff_conditions (p : Params) (cs : List Candle) (t : ℕ) :
    colAt (populate_exit_trend p (populate_indicators p (initFrame cs))).exit_long t = some 1
      ↔ exitSpec p (populate_indicators p (initFrame cs)) t := by
  rw [exit_colAt]
  by_cases ht : t < (populate_indicators p (initFrame cs)).candles.length
  · rw [if_pos ht]
    by_cases hcond : exitCond p (populate_indicators p (initFrame cs)) t = true
    · rw [if_pos hcond]
      exact iff_of_true rfl ((exitCond_eq_true_iff p _ t).1 hcond)
    · rw [if_neg hcond]
      have hval : colAt (populate_indicators p (initFrame cs)).exit_long t = none := by
        rw [indicators_exit]
        exact colAt_replicate_none _ _
      rw [hval]
      exact iff_of_false (by simp)
        (fun hspec => hcond ((exitCond_eq_true_iff p _ t).2 hspec))
  · rw [if_neg ht]
    have hlen : cs.length ≤ t := Nat.not_lt.1 ht
    refine iff_of_false (by simp) ?_
    rintro (⟨m, ms, mp, msp, hm, _⟩ | ⟨r, hr, _⟩ | ⟨c, e, hc, _, _⟩)
    · have hval : colAt (populate_indicators p (initFrame cs)).macd t = none := by
        apply colAt_of_length_le
        show (macdCol (closes cs)).length ≤ t
        rw [macdCol_length, closes_length]
        exact hlen
      rw [hval] at hm
      exact absurd hm (by simp)
    · have hval : colAt (populate_indicators p (initFrame cs)).rsi t = none := by
        apply colAt_of_length_le
        show (rsiCol 14 (closes cs)).length ≤ t
        rw [rsiCol_length 14 _ (by omega), closes_length]
        exact hlen
      rw [hval] at hr
      exact absurd hr (by simp)
    · rw [closeCol_of_length_le hlen] at hc
      exact absurd hc (by simp)

/-! ### Undefined cells: comparisons against NaN are false -/

lemma optGT_none_left (b : Option ℚ) : optGT none b = false := by cases b <;> rfl

lemma optGT_none_right (a : Option ℚ) : optGT a none = false := by cases a <;> rfl

lemma optLT_none_left (b : Option ℚ) : optLT none b = false := by cases b <;> rfl

lemma optLT_none_right (a : Option ℚ) : optLT a none = false := by cases a <;> rfl

lemma optGE_none_left (b : Option ℚ) : optGE none b = false := by cases b <;> rfl

lemma optGE_none_right (a : Option ℚ) : optGE a none = false := by cases a <;> rfl

lemma optLE_none_left (b : Option ℚ) : optLE none b = false := by cases b <;> rfl

lemma optLE_none_right (a : Option ℚ) : optLE a none = false := by cases a <;> rfl

/-! ### Warm-up prefix of each indicator column -/

lemma emaVals_eq_nil {n : ℕ} {xs : List ℚ} (h : xs.length < n) :
    emaVals n xs = [] := by
  unfold emaVals
  rw [if_pos (Or.inl h)]

lemma padded_undef {k len t : ℕ} {vals : List ℚ} (hlen : vals.length = len - k)
    (ht : t < k) :
    colAt (List.replicate (min len k) (none : Option ℚ) ++ vals.map some) t = none := by
  rcases Nat.lt_or_ge t (min len k) with h | h
  · unfold colAt
    rw [List.getD_eq_getElem?_getD,
      List.getElem?_append_left (by simpa using h),
      List.getElem?_replicate_of_lt (by simpa using h)]
    rfl
  · apply colAt_of_length_le
    rw [List.length_append, List.length_replicate, List.length_map, hlen]
    omega

lemma emaCol_undef (n : ℕ) (xs : List ℚ) {t : ℕ} (ht : t < n - 1) :
    colAt (emaCol n xs) t = none := by
  unfold emaCol
  exact padded_undef (by rw [emaVals_length n xs (by omega)]; omega) ht

lemma macdCol_undef (xs : List ℚ) {t : ℕ} (ht : t < 25) :
    colAt (macdCol xs) t = none := by
  unfold macdCol
  exact padded_undef (macdVals_length xs) ht

lemma macdsignalCol_undef (xs : List ℚ) {t : ℕ} (ht : t < 33) :
    colAt (macdsignalCol xs) t = none := by
  unfold macdsignalCol
  exact padded_undef (macdsignalVals_length xs) ht

lemma rsiCol_undef (n : ℕ) (xs : List ℚ) {t : ℕ} (ht : t < n) :
    colAt (rsiCol n xs) t = none := by
  unfold rsiCol
  exact padded_undef (rsiVals_length n xs (by omega)) (by omega)

lemma shiftCol_colAt (xs : Col) (t : ℕ) :
    colAt (shiftCol xs) t =
      if t < xs.length then (if t = 0 then none else colAt xs (t - 1)) else none := by
  unfold shiftCol
  rcases Nat.lt_or_ge t xs.length with h | h
  · rw [if_pos h]
    unfold colAt
    rw [List.getD_eq_getElem?_getD, List.getElem?_take_of_lt h]
    cases t with
    | zero => simp
    | succ s => simp [colAt, List.getD_eq_getElem?_getD]
  · rw [if_neg (Nat.not_lt.2 h)]
    exact colAt_of_length_le (by simp only [List.length_take, List.length_cons]; omega)

lemma shiftCol_undef {xs : Col} {t : ℕ} (h : colAt xs (t - 1) = none) :
    colAt (shiftCol xs) t = none := by
  rw [shiftCol_colAt]
  split
  · split
    · rfl
    · exact h
  · rfl

/-! ### The entry and exit masks leave everything else untouched -/

lemma entry_candles (p : Params) (df : StratFrame) :
    (populate_entry_trend p df).candles = df.candles := rfl

lemma exit_candles (p : Params) (df : StratFrame) :
    (populate_exit_trend p df).candles = df.candles := rfl

lemma exit_keeps_enter (p : Params) (df : StratFrame) :
    (populate_exit_trend p df).enter_long = df.enter_long := rfl

lemma entry_keeps_exit (p : Params) (df : StratFrame) :
    (populate_entry_trend p df).exit_long = df.exit_long := rfl

lemma exitCond_entry (p : Params) (df : StratFrame) (t : ℕ) :
    exitCond p (populate_entry_trend p df) t = exitCond p df t := rfl

lemma entryCond_false_of (p : Params) (df : StratFrame) (t : ℕ)
    (h : optGT (closeCol df t) (colAt df.ema200 t) = false
      ∨ optGT (colAt df.ema200 t) (colAt df.ema200_prev t) = false
      ∨ optGT (colAt df.macd t) (colAt df.macdsignal t) = false
      ∨ optLE (colAt df.macd_prev t) (colAt df.macdsignal_prev t) = false
      ∨ optGE (colAt df.rsi t) (some p.rsi_entry_low) = false) :
    entryCond p df t = false := by
  unfold entryCond
  rcases h with h | h | h | h | h <;> rw [h] <;> simp

lemma exitCond_false_of (p : Params) (df : StratFrame) (t : ℕ)
    (h1 : optLT (colAt df.macd t) (colAt df.macdsignal t) = false
      ∨ optGE (colAt df.macd_prev t) (colAt df.macdsignal_prev t) = false)
    (h2 : optLT (colAt df.rsi t) (some p.rsi_exit) = false)
    (h3 : optLT (closeCol df t) (colAt df.ema200 t) = false) :
    exitCond p df t = false := by
  unfold exitCond
  rw [h2, h3]
  rcases h1 with h | h <;> rw [h] <;> simp

lemma enter_none_of_false (p : Params) (df : StratFrame) (t : ℕ)
    (h : entryCond p df t = false) (h0 : colAt df.enter_long t = none) :
    colAt (populate_entry_trend p df).enter_long t = none := by
  rw [enter_colAt]
  split
  · rw [if_neg (by simp [h])]
    exact h0
  · rfl

lemma exit_none_of_false (p : Params) (df : StratFrame) (t : ℕ)
    (h : exitCond p df t = false) (h0 : colAt df.exit_long t = none) :
    colAt (populate_exit_trend p df).exit_long t = none := by
  rw [exit_colAt]
  split
  · rw [if_neg (by simp [h])]
    exact h0
  · rfl

unseal Rat.add Rat.mul Rat.inv Rat.sub in
/-- Claim C3 counterexample: warm-up masking up to position 201 does not
hold — on a 15-row falling series the exit signal is already set at
position 14 (the first position with a defined RSI), well below 201.  The
code performs no warm-up masking of its own; `startup_candle_count = 210`
is only advertised to the host. -/
theorem warmup_masking_fails_before_201 :
    14 < 201 ∧ colAt (runAll defaultParams csDown).exit_long 14 = some 1 :=
  ⟨by omega, by decide⟩

/-- Claim C3 amended: with the default configuration, `enter_long[t]` is
unset for every `t < 200` (the lagged EMA200 is undefined there), but the
exit signal is only guaranteed unset for `t < 14` (the RSI warm-up); beyond
that a defined exit disjunct may already set it, so the spec's threshold of
201 masks only the entry side minus one, not both signals. -/
theorem warmup_partial_masking (cs : List Candle) (t : ℕ) :
    (t < 200 → colAt (runAll defaultParams cs).enter_long t = none)
    ∧ (t < 14 → colAt (runAll defaultParams cs).exit_long t = none) := by
  constructor
  · intro ht
    unfold runAll
    rw [exit_keeps_enter]
    apply enter_none_of_false
    · apply entryCond_false_of
      refine Or.inr (Or.inl ?_)
      have hprev :
          colAt (populate_indicators defaultParams (initFrame cs)).ema200_prev t = none :=
        shiftCol_undef (emaCol_undef 200 _ (by omega))
      rw [hprev]
      exact optGT_none_right _
    · rw [indicators_enter]
      exact colAt_replicate_none _ _
  · intro ht
    unfold runAll
    apply exit_none_of_false
    · rw [exitCond_entry]
      have hmacd :
          colAt (populate_indicators defaultParams (initFrame cs)).macd t = none :=
        macdCol_undef _ (by omega)
      have hrsi :
          colAt (populate_indicators defaultParams (initFrame cs)).rsi t = none :=
        rsiCol_undef 14 _ (by omega)
      have hema :
          colAt (populate_indicators defaultParams (initFrame cs)).ema200 t = none :=
        emaCol_undef 200 _ (by omega)
      apply exitCond_false_of
      · left
        rw [hmacd]
        exact optLT_none_left _
      · rw [hrsi]
        exact optLT_none_left _
      · rw [hema]
        exact optLT_none_right _
    · rw [entry_keeps_exit, indicators_exit]
      exact colAt_replicate_none _ _

/-- Witness for the amended warm-up claim at a concrete series/position. -/
theorem warmup_partial_masking_witness :
    colAt (runAll defaultParams csDown).enter_long 5 = none
    ∧ colAt (runAll defaultParams csDown).exit_long 5 = none :=
  ⟨(warmup_partial_masking csDown 5).1 (by omega),
   (warmup_partial_masking csDown 5).2 (by omega)⟩

/-- Helper for C4: the two signals can never fire on the same row, because
each exit disjunct contradicts an entry conjunct (bearish vs. bullish MACD
position, `rsi < 30` vs. `rsi ≥ 45`, and close below vs. above EMA200). -/
lemma never_both (cs : List Candle) (t : ℕ) :
    colAt (runAll defaultParams cs).enter_long t = none
    ∨ colAt (runAll defaultParams cs).exit_long t = none := by
  by_cases hcond :
      entryCond defaultParams (populate_indicators defaultParams (initFrame cs)) t = true
  · right
    obtain ⟨⟨c, e, hc, he, h1⟩, -, ⟨m, ms, mp, msp, hm, hms, hmp, hmsp, h3, -⟩,
        ⟨r, hr, h5, -⟩⟩ := (entryCond_eq_true_iff _ _ _).1 hcond
    unfold runAll
    apply exit_none_of_false
    · rw [exitCond_entry]
      apply exitCond_false_of
      · left
        rw [hm, hms]
        simp only [optLT, decide_eq_false_iff_not]
        exact not_lt.2 (le_of_lt h3)
      · rw [hr]
        simp only [optLT, decide_eq_false_iff_not, not_lt]
        have h45 : (45 : ℚ) ≤ r := h5
        have h30 : defaultParams.rsi_exit = (30 : ℚ) := rfl
        rw [h30]
        linarith
      · rw [hc, he]
        simp only [optLT, decide_eq_false_iff_not]
        exact not_lt.2 (le_of_lt h1)
    · rw [entry_keeps_exit, indicators_exit]
      exact colAt_replicate_none _ _
  · left
    unfold runAll
    rw [exit_keeps_enter]
    apply enter_none_of_false
    · exact Bool.eq_false_iff.2 hcond
    · rw [indicators_enter]
      exact colAt_replicate_none _ _

/-- Claim C4 counterexample (the claim is existential; this is its
negation): there is no candle series and position at which both
`enter_long` and `exit_long` are set under the default parameters. -/
theorem no_simultaneous_signals :
    ¬ ∃ (cs : List Candle) (t : ℕ),
        colAt (runAll defaultParams cs).enter_long t = some 1
        ∧ colAt (runAll defaultParams cs).exit_long t = some 1 := by
  rintro ⟨cs, t, h1, h2⟩
  rcases never_both cs t with h | h
  · rw [h1] at h
    exact absurd h (by simp)
  · rw [h2] at h
    exact absurd h (by simp)

/-- Claim C4 amended: mutual exclusivity IS guaranteed — on every series
and row, at least one of the two signals is unset, since each exit disjunct
contradicts an entry conjunct. -/
theorem signals_mutually_exclusive (cs : List Candle) (t : ℕ) :
    colAt (runAll defaultParams cs).enter_long t = none
    ∨ colAt (runAll defaultParams cs).exit_long t = none :=
  never_both cs t

unseal Rat.add Rat.mul Rat.inv Rat.sub in
/-- Claim C5 counterexample: at position 14 of the falling series the exit
rule references `macd`, which is undefined there, yet `exit_long` is set —
an undefined referenced indicator does not force the exit signal to false. -/
theorem undefined_reference_can_still_signal :
    colAt (runAll defaultParams csDown).macd 14 = none
    ∧ colAt (runAll defaultParams csDown).exit_long 14 = some 1 :=
  ⟨by decide, by decide⟩

/-- Claim C5 amended: undefined values never cause an error (the model is
total) and never themselves produce a true signal: if any value referenced
by the entry rule is undefined at `t` then `enter_long[t]` is unset, and if
every exit disjunct references an undefined value at `t` then `exit_long[t]`
is unset — but a fully-defined exit disjunct may still set `exit_long[t]`
while another referenced value is undefined. -/
theorem undefined_handling (p : Params) (cs : List Candle) (t : ℕ) :
    ((closeCol (populate_indicators p (initFrame cs)) t = none
        ∨ colAt (populate_indicators p (initFrame cs)).ema200 t = none
        ∨ colAt (populate_indicators p (initFrame cs)).ema200_prev t = none
        ∨ colAt (populate_indicators p (initFrame cs)).macd t = none
        ∨ colAt (populate_indicators p (initFrame cs)).macdsignal t = none
        ∨ colAt (populate_indicators p (initFrame cs)).macd_prev t = none
        ∨ colAt (populate_indicators p (initFrame cs)).macdsignal_prev t = none
        ∨ colAt (populate_indicators p (initFrame cs)).rsi t = none)
      → colAt (runAll p cs).enter_long t = none)
    ∧ (((colAt (populate_indicators p (initFrame cs)).macd t = none
          ∨ colAt (populate_indicators p (initFrame cs)).macdsignal t = none
          ∨ colAt (populate_indicators p (initFrame cs)).macd_prev t = none
          ∨ colAt (populate_indicators p (initFrame cs)).macdsignal_prev t = none)
        ∧ colAt (populate_indicators p (initFrame cs)).rsi t = none
        ∧ (closeCol (populate_indicators p (initFrame cs)) t = none
          ∨ colAt (populate_indicators p (initFrame cs)).ema200 t = none))
      → colAt (runAll p cs).exit_long t = none) := by
  constructor
  · intro h
    unfold runAll
    rw [exit_keeps_enter]
    apply enter_none_of_false
    · apply entryCond_false_of
      rcases h with h | h | h | h | h | h | h | h
      · exact Or.inl (by rw [h]; exact optGT_none_left _)
      · exact Or.inl (by rw [h]; exact optGT_none_right _)
      · exact Or.inr (Or.inl (by rw [h]; exact optGT_none_right _))
      · exact Or.inr (Or.inr (Or.inl (by rw [h]; exact optGT_none_left _)))
      · exact Or.inr (Or.inr (Or.inl (by rw [h]; exact optGT_none_right _)))
      · exact Or.inr (Or.inr (Or.inr (Or.inl (by rw [h]; exact optLE_none_left _))))
      · exact Or.inr (Or.inr (Or.inr (Or.inl (by rw [h]; exact optLE_none_right _))))
      · exact Or.inr (Or.inr (Or.inr (Or.inr (by rw [h]; exact optGE_none_left _))))
    · rw [indicators_enter]
      exact colAt_replicate_none _ _
  · rintro ⟨h1, h2, h3⟩
    unfold runAll
    apply exit_none_of_false
    · rw [exitCond_entry]
      apply exitCond_false_of
      · rcases h1 with h | h | h | h
        · exact Or.inl (by rw [h]; exact optLT_none_left _)
        · exact Or.inl (by rw [h]; exact optLT_none_right _)
        · exact Or.inr (by rw [h]; exact optGE_none_left _)
        · exact Or.inr (by rw [h]; exact optGE_none_right _)
      · rw [h2]
        exact optLT_none_left _
      · rcases h3 with h | h
        · rw [h]
          exact optLT_none_left _
        · rw [h]
          exact optLT_none_right _
    · rw [entry_keeps_exit, indicators_exit]
      exact colAt_replicate_none _ _

unseal Rat.add Rat.mul Rat.inv Rat.sub in
/-- Witness for the amended undefined-handling claim at a concrete
series/position (position 3 of the falling series: every indicator is still
undefined there, and both signals stay unset). -/
theorem undefined_handling_witness :
    colAt (runAll defaultParams csDown).enter_long 3 = none
    ∧ colAt (runAll defaultParams csDown).exit_long 3 = none :=
  ⟨(undefined_handling defaultParams csDown 3).1 (Or.inr (Or.inl (by decide))),
   (undefined_handling defaultParams csDown 3).2
     ⟨Or.inl (by decide), by decide, Or.inr (by decide)⟩⟩

/-! ### RSI stays between 0 and 100 -/

lemma mem_zipWith {α β γ : Type} {f : α → β → γ} {as : List α} {bs : List β} {c : γ}
    (h : c ∈ List.zipWith f as bs) : ∃ a b, a ∈ as ∧ b ∈ bs ∧ c = f a b := by
  induction as generalizing bs with
  | nil => simp at h
  | cons a as ih =>
    cases bs with
    | nil => simp at h
    | cons b bs =>
      rw [List.zipWith_cons_cons] at h
      rcases List.mem_cons.1 h with rfl | h
      · exact ⟨a, b, by simp, by simp, rfl⟩
      · obtain ⟨x, y, hx, hy, rfl⟩ := ih h
        exact ⟨x, y, List.mem_cons_of_mem _ hx, List.mem_cons_of_mem _ hy, rfl⟩

lemma gains_nonneg (ds : List ℚ) : ∀ x ∈ gains ds, 0 ≤ x := by
  intro x hx
  obtain ⟨d, -, rfl⟩ := List.mem_map.1 hx
  exact le_max_right d 0

lemma losses_nonneg (ds : List ℚ) : ∀ x ∈ losses ds, 0 ≤ x := by
  intro x hx
  obtain ⟨d, -, rfl⟩ := List.mem_map.1 hx
  exact le_max_right (-d) 0

lemma wilderFrom_nonneg {n : ℕ} (hn : 1 ≤ n) {q : ℚ} (hq : 0 ≤ q) {l : List ℚ}
    (hl : ∀ x ∈ l, 0 ≤ x) : ∀ y ∈ wilderFrom n q l, 0 ≤ y := by
  induction l generalizing q with
  | nil => simp [wilderFrom]
  | cons x xs ih =>
    intro y hy
    simp only [wilderFrom, List.mem_cons] at hy
    have hx : 0 ≤ x := hl x (by simp)
    have hn1 : (1 : ℚ) ≤ (n : ℚ) := by exact_mod_cast hn
    have ha : 0 ≤ (q * ((n : ℚ) - 1) + x) / (n : ℚ) := by
      apply div_nonneg
      · have hns : (0 : ℚ) ≤ (n : ℚ) - 1 := by linarith
        have := mul_nonneg hq hns
        linarith
      · positivity
    rcases hy with rfl | hy
    · exact ha
    · exact ih ha (fun z hz => hl z (List.mem_cons_of_mem _ hz)) y hy

lemma wilderAvgs_nonneg {n : ℕ} {ds : List ℚ} (hds : ∀ x ∈ ds, 0 ≤ x) :
    ∀ y ∈ wilderAvgs n ds, 0 ≤ y := by
  unfold wilderAvgs
  split
  · simp
  · rename_i hcond
    intro y hy
    have hn : 1 ≤ n := by omega
    have hseed : 0 ≤ (ds.take n).sum / (n : ℚ) := by
      apply div_nonneg
      · exact List.sum_nonneg (fun x hx => hds x (List.take_subset _ _ hx))
      · positivity
    rcases List.mem_cons.1 hy with rfl | hy
    · exact hseed
    · exact wilderFrom_nonneg hn hseed (fun z hz => hds z (List.drop_subset _ _ hz)) y hy

lemma rsiVal_bounds {g l : ℚ} (hg : 0 ≤ g) (hl : 0 ≤ l) :
    0 ≤ rsiVal g l ∧ rsiVal g l ≤ 100 := by
  unfold rsiVal
  split
  · norm_num
  · rename_i hne
    have hlpos : 0 < l := lt_of_le_of_ne hl (Ne.symm hne)
    have hpos : 0 < g + l := by linarith
    constructor
    · positivity
    · rw [div_le_iff₀ hpos]
      linarith

lemma colAt_padded_some {k len t : ℕ} {vals : List ℚ} {r : ℚ}
    (h : colAt (List.replicate (min len k) (none : Option ℚ) ++ vals.map some) t = some r) :
    r ∈ vals := by
  unfold colAt at h
  rw [List.getD_eq_getElem?_getD] at h
  rcases Nat.lt_or_ge t (min len k) with hlt | hge
  · rw [List.getElem?_append_left (by simpa using hlt),
      List.getElem?_replicate_of_lt (by simpa using hlt)] at h
    simp at h
  · rw [List.getElem?_append_right (by simpa using hge)] at h
    cases hx : (vals.map some)[t - (List.replicate (min len k) (none : Option ℚ)).length]? with
    | none =>
      rw [hx] at h
      exact absurd h (by simp)
    | some v =>
      rw [hx] at h
      have hv : v = some r := by simpa using h
      subst hv
      have hmem := List.getElem?_mem hx
      obtain ⟨w, hw, hwr⟩ := List.mem_map.1 hmem
      obtain rfl := Option.some.inj hwr
      exact hw

/-- Claim C7: whenever the `rsi` column of the pipeline output is defined
at a position, its value lies in `[0, 100]`. -/
theorem rsi_bounded (cs : List Candle) (t : ℕ) (r : ℚ)
    (h : colAt (runAll defaultParams cs).rsi t = some r) :
    0 ≤ r ∧ r ≤ 100 := by
  have h2 : colAt (List.replicate (min (closes cs).length 14) (none : Option ℚ)
      ++ (rsiVals 14 (closes cs)).map some) t = some r := h
  have hmem : r ∈ rsiVals 14 (closes cs) := colAt_padded_some h2
  unfold rsiVals at hmem
  obtain ⟨g, l, hg, hl, rfl⟩ := mem_zipWith hmem
  exact rsiVal_bounds (wilderAvgs_nonneg (gains_nonneg _) g hg)
    (wilderAvgs_nonneg (losses_nonneg _) l hl)

unseal Rat.add Rat.mul Rat.inv Rat.sub in
/-- Witness for the RSI bound: the falling series has `rsi = 0` at
position 14, and the bound holds there. -/
theorem rsi_bounded_witness : 0 ≤ (0 : ℚ) ∧ (0 : ℚ) ≤ 100 :=
  rsi_bounded csDown 14 0 (by decide)

/-- Claim C8: `populate_indicators` is idempotent — running it again on its
own output recomputes every indicator column from the unchanged `close`
data, so the whole frame (hence every indicator value at every position) is
identical to the first run. -/
theorem populate_indicators_idempotent (p : Params) (df : StratFrame) :
    populate_indicators p (populate_indicators p df) = populate_indicators p df := rfl

/-- Claim C9: the computation is a pure function of the candle series and
parameters — it reads no other state, so two runs on the same input produce
identical indicator and signal series.  (In this embedding the three
`populate_*` methods are total functions, so purity holds by construction;
this records that the output depends on nothing but the input.) -/
theorem deterministic (p : Params) (cs1 cs2 : List Candle) (h : cs1 = cs2) :
    runAll p cs1 = runAll p cs2 := by rw [h]

/-- Witness for determinism at a concrete input. -/
theorem deterministic_witness :
    ([] : List Candle) = ([] : List Candle)
    ∧ runAll defaultParams [] = runAll defaultParams [] :=
  ⟨rfl, deterministic defaultParams [] [] rfl⟩

/-- Claim C10: `populate_entry_trend` writes only `enter_long` and
`populate_exit_trend` writes only `exit_long`; the candle rows (their
number and order) and all other columns are unchanged, the written signal
column has exactly one cell per row, and a row whose mask is false keeps
its previous signal cell (unset stays unset, nothing is overwritten). -/
theorem frame_effects (p : Params) (df : StratFrame) (t : ℕ) :
    ((populate_entry_trend p df).candles = df.candles
      ∧ (populate_entry_trend p df).ema200 = df.ema200
      ∧ (populate_entry_trend p df).ema200_prev = df.ema200_prev
      ∧ (populate_entry_trend p df).macd = df.macd
      ∧ (populate_entry_trend p df).macdsignal = df.macdsignal
      ∧ (populate_entry_trend p df).macdhist = df.macdhist
      ∧ (populate_entry_trend p df).macd_prev = df.macd_prev
      ∧ (populate_entry_trend p df).macdsignal_prev = df.macdsignal_prev
      ∧ (populate_entry_trend p df).rsi = df.rsi
      ∧ (populate_entry_trend p df).exit_long = df.exit_long
      ∧ (populate_entry_trend p df).enter_long.length = df.candles.length)
    ∧ ((populate_exit_trend p df).candles = df.candles
      ∧ (populate_exit_trend p df).ema200 = df.ema200
      ∧ (populate_exit_trend p df).ema200_prev = df.ema200_prev
      ∧ (populate_exit_trend p df).macd = df.macd
      ∧ (populate_exit_trend p df).macdsignal = df.macdsignal
      ∧ (populate_exit_trend p df).macdhist = df.macdhist
      ∧ (populate_exit_trend p df).macd_prev = df.macd_prev
      ∧ (populate_exit_trend p df).macdsignal_prev = df.macdsignal_prev
      ∧ (populate_exit_trend p df).rsi = df.rsi
      ∧ (populate_exit_trend p df).enter_long = df.enter_long
      ∧ (populate_exit_trend p df).exit_long.length = df.candles.length)
    ∧ ((t < df.candles.length → entryCond p df t = false →
          colAt (populate_entry_trend p df).enter_long t = colAt df.enter_long t)
      ∧ (t < df.candles.length → exitCond p df t = false →
          colAt (populate_exit_trend p df).exit_long t = colAt df.exit_long t)) := by
  refine ⟨⟨rfl, rfl, rfl, rfl, rfl, rfl, rfl, rfl, rfl, rfl, ?_⟩,
    ⟨rfl, rfl, rfl, rfl, rfl, rfl, rfl, rfl, rfl, rfl, ?_⟩, ?_, ?_⟩
  · simp [populate_entry_trend]
  · simp [populate_exit_trend]
  · intro ht hc
    rw [enter_colAt, if_pos ht, if_neg (by simp [hc])]
  · intro ht hc
    rw [exit_colAt, if_pos ht, if_neg (by simp [hc])]

unseal Rat.add Rat.mul Rat.inv Rat.sub in
/-- Witness for the frame-effect claim at a concrete frame and row. -/
theorem frame_effects_witness :
    (0 < csDown.length ∧ entryCond defaultParams (initFrame csDown) 0 = false
      ∧ exitCond defaultParams (initFrame csDown) 0 = false)
    ∧ colAt (populate_entry_trend defaultParams (initFrame csDown)).enter_long 0
        = colAt (initFrame csDown).enter_long 0
    ∧ colAt (populate_exit_trend defaultParams (initFrame csDown)).exit_long 0
        = colAt (initFrame csDown).exit_long 0 :=
  ⟨⟨by decide, by decide, by decide⟩,
   (frame_effects defaultParams (initFrame csDown) 0).2.2.1 (by decide) (by decide),
   (frame_effects defaultParams (initFrame csDown) 0).2.2.2 (by decide) (by decide)⟩

/-! ### Causality: every stage commutes with truncation of the series -/

lemma emaFrom_take (k q : ℚ) (l : List ℚ) (m : ℕ) :
    emaFrom k q (l.take m) = (emaFrom k q l).take m := by
  induction l generalizing q m with
  | nil => simp [emaFrom]
  | cons x xs ih =>
    cases m with
    | zero => simp [emaFrom]
    | succ j => simp only [List.take_succ_cons, emaFrom, ih]

lemma wilderFrom_take (n : ℕ) (q : ℚ) (l : List ℚ) (m : ℕ) :
    wilderFrom n q (l.take m) = (wilderFrom n q l).take m := by
  induction l generalizing q m with
  | nil => simp [wilderFrom]
  | cons x xs ih =>
    cases m with
    | zero => simp [wilderFrom]
    | succ j => simp only [List.take_succ_cons, wilderFrom, ih]

lemma diffs_take (xs : List ℚ) (m : ℕ) :
    diffs (xs.take m) = (diffs xs).take (m - 1) := by
  induction xs generalizing m with
  | nil => simp [diffs]
  | cons x xs ih =>
    cases xs with
    | nil =>
      cases m with
      | zero => simp [diffs]
      | succ j => cases j <;> simp [diffs]
    | cons y rest =>
      cases m with
      | zero => simp [diffs]
      | succ j =>
        cases j with
        | zero => simp [diffs]
        | succ i =>
          simp only [List.take_succ_cons, diffs]
          have h2 : y :: rest.take i = (y :: rest).take (i + 1) := rfl
          rw [h2, ih]
          simp [diffs]

lemma wilderAvgs_eq_nil {n : ℕ} {ds : List ℚ} (h : ds.length < n) :
    wilderAvgs n ds = [] := by
  unfold wilderAvgs
  rw [if_pos (Or.inl h)]

lemma emaVals_take (n : ℕ) (xs : List ℚ) (m : ℕ) :
    emaVals n (xs.take m) = (emaVals n xs).take (m + 1 - n) := by
  by_cases hn : n = 0
  · subst hn
    simp [emaVals]
  · by_cases h1 : xs.length < n
    · rw [emaVals_eq_nil (by rw [List.length_take]; omega), emaVals_eq_nil h1]
      simp
    · by_cases h2 : m < n
      · rw [emaVals_eq_nil (by rw [List.length_take]; omega)]
        have h0 : m + 1 - n = 0 := by omega
        rw [h0, List.take_zero]
      · have hnm : n ≤ m := Nat.le_of_not_lt h2
        have ht : m + 1 - n = (m - n) + 1 := by omega
        unfold emaVals
        rw [if_neg (by rw [List.length_take]; omega), if_neg (by omega), ht]
        simp only [List.take_take, Nat.min_eq_left hnm, List.drop_take, emaFrom_take,
          List.take_succ_cons]

lemma wilderAvgs_take (n : ℕ) (ds : List ℚ) (m : ℕ) :
    wilderAvgs n (ds.take m) = (wilderAvgs n ds).take (m + 1 - n) := by
  by_cases hn : n = 0
  · subst hn
    simp [wilderAvgs]
  · by_cases h1 : ds.length < n
    · rw [wilderAvgs_eq_nil (by rw [List.length_take]; omega), wilderAvgs_eq_nil h1]
      simp
    · by_cases h2 : m < n
      · rw [wilderAvgs_eq_nil (by rw [List.length_take]; omega)]
        have h0 : m + 1 - n = 0 := by omega
        rw [h0, List.take_zero]
      · have hnm : n ≤ m := Nat.le_of_not_lt h2
        have ht : m + 1 - n = (m - n) + 1 := by omega
        unfold wilderAvgs
        rw [if_neg (by rw [List.length_take]; omega), if_neg (by omega), ht]
        simp only [List.take_take, Nat.min_eq_left hnm, List.drop_take, wilderFrom_take,
          List.take_succ_cons]

lemma macdVals_take (xs : List ℚ) (m : ℕ) :
    macdVals (xs.take m) = (macdVals xs).take (m - 25) := by
  unfold macdVals
  rw [emaVals_take 12, emaVals_take 26]
  have h12 : m + 1 - 12 = m - 11 := by omega
  have h26 : m + 1 - 26 = m - 25 := by omega
  rw [h12, h26, List.drop_take]
  have h3 : m - 11 - 14 = m - 25 := by omega
  rw [h3, List.take_zipWith]

lemma macdsignalVals_take (xs : List ℚ) (m : ℕ) :
    macdsignalVals (xs.take m) = (macdsignalVals xs).take (m - 33) := by
  unfold macdsignalVals
  rw [macdVals_take, emaVals_take 9]
  have h9 : m - 25 + 1 - 9 = m - 33 := by omega
  rw [h9]

lemma rsiVals_take (n : ℕ) (hn : n ≠ 0) (xs : List ℚ) (m : ℕ) :
    rsiVals n (xs.take m) = (rsiVals n xs).take (m - n) := by
  unfold rsiVals gains losses
  rw [diffs_take, List.map_take, List.map_take, wilderAvgs_take, wilderAvgs_take]
  have h : m - 1 + 1 - n = m - n := by omega
  rw [h, List.take_zipWith]

lemma pad_take (k m len : ℕ) (vals : List ℚ) (h : vals.length = len - k) :
    List.replicate (min (min m len) k) (none : Option ℚ) ++ (vals.take (m - k)).map some
      = (List.replicate (min len k) (none : Option ℚ) ++ vals.map some).take m := by
  rw [List.take_append_eq_append_take, List.take_replicate, List.length_replicate,
    ← List.map_take]
  congr 1
  · rw [Nat.min_assoc]
  · rcases Nat.lt_or_ge len k with h1 | h1
    · have hv : vals = [] := List.length_eq_zero.1 (by omega)
      subst hv
      simp
    · rw [Nat.min_eq_right h1]

lemma emaCol_take (n : ℕ) (xs : List ℚ) (m : ℕ) :
    emaCol n (xs.take m) = (emaCol n xs).take m := by
  by_cases hn : n = 0
  · subst hn
    simp [emaCol, emaVals]
  · unfold emaCol
    rw [List.length_take, emaVals_take]
    have h1 : n - 1 = n - 1 := rfl
    have h2 : m + 1 - n = m - (n - 1) := by omega
    rw [h2]
    exact pad_take (n - 1) m xs.length (emaVals n xs)
      (by rw [emaVals_length n xs hn]; omega)

lemma macdCol_take (xs : List ℚ) (m : ℕ) :
    macdCol (xs.take m) = (macdCol xs).take m := by
  unfold macdCol
  rw [List.length_take, macdVals_take]
  exact pad_take 25 m xs.length (macdVals xs) (macdVals_length xs)

lemma macdsignalCol_take (xs : List ℚ) (m : ℕ) :
    macdsignalCol (xs.take m) = (macdsignalCol xs).take m := by
  unfold macdsignalCol
  rw [List.length_take, macdsignalVals_take]
  exact pad_take 33 m xs.length (macdsignalVals xs) (macdsignalVals_length xs)

lemma rsiCol_take (n : ℕ) (hn : n ≠ 0) (xs : List ℚ) (m : ℕ) :
    rsiCol n (xs.take m) = (rsiCol n xs).take m := by
  unfold rsiCol
  rw [List.length_take, rsiVals_take n hn]
  exact pad_take n m xs.length (rsiVals n xs) (rsiVals_length n xs hn)

lemma subCols_take (a b : Col) (m : ℕ) :
    subCols (a.take m) (b.take m) = (subCols a b).take m := by
  unfold subCols
  rw [List.take_zipWith]

lemma macdhistCol_take (xs : List ℚ) (m : ℕ) :
    macdhistCol (xs.take m) = (macdhistCol xs).take m := by
  unfold macdhistCol
  rw [macdCol_take, macdsignalCol_take, subCols_take]

lemma shiftCol_take (l : Col) (m : ℕ) :
    shiftCol (l.take m) = (shiftCol l).take m := by
  unfold shiftCol
  rw [List.length_take, List.take_take]
  rcases Nat.eq_zero_or_pos (min m l.length) with h | h
  · rw [h]
    rfl
  · obtain ⟨j, hj⟩ : ∃ j, min m l.length = j + 1 := ⟨min m l.length - 1, by omega⟩
    rw [hj, List.take_succ_cons, List.take_succ_cons, List.take_take,
      Nat.min_eq_left (by omega)]

lemma closes_take (cs : List Candle) (m : ℕ) :
    closes (cs.take m) = (closes cs).take m := by
  unfold closes
  rw [List.map_take]

lemma indicators_take (p : Params) (cs : List Candle) (m : ℕ) :
    populate_indicators p (initFrame (cs.take m))
      = frameTake m (populate_indicators p (initFrame cs)) := by
  apply StratFrame.ext
  · rfl
  · show emaCol p.ema_length (closes (cs.take m)) = (emaCol p.ema_length (closes cs)).take m
    rw [closes_take, emaCol_take]
  · show shiftCol (emaCol p.ema_length (closes (cs.take m)))
        = (shiftCol (emaCol p.ema_length (closes cs))).take m
    rw [closes_take, emaCol_take, shiftCol_take]
  · show macdCol (closes (cs.take m)) = (macdCol (closes cs)).take m
    rw [closes_take, macdCol_take]
  · show macdsignalCol (closes (cs.take m)) = (macdsignalCol (closes cs)).take m
    rw [closes_take, macdsignalCol_take]
  · show macdhistCol (closes (cs.take m)) = (macdhistCol (closes cs)).take m
    rw [closes_take, macdhistCol_take]
  · show shiftCol (macdCol (closes (cs.take m))) = (shiftCol (macdCol (closes cs))).take m
    rw [closes_take, macdCol_take, shiftCol_take]
  · show shiftCol (macdsignalCol (closes (cs.take m)))
        = (shiftCol (macdsignalCol (closes cs))).take m
    rw [closes_take, macdsignalCol_take, shiftCol_take]
  · show rsiCol 14 (closes (cs.take m)) = (rsiCol 14 (closes cs)).take m
    rw [closes_take, rsiCol_take 14 (by omega)]
  · show List.replicate (cs.take m).length (none : Option ℚ)
        = (List.replicate cs.length (none : Option ℚ)).take m
    rw [List.length_take, List.take_replicate]
  · show List.replicate (cs.take m).length (none : Option ℚ)
        = (List.replicate cs.length (none : Option ℚ)).take m
    rw [List.length_take, List.take_replicate]

lemma colAt_take {l : Col} {m t : ℕ} (h : t < m) : colAt (l.take m) t = colAt l t := by
  unfold colAt
  rw [List.getD_eq_getElem?_getD, List.getD_eq_getElem?_getD, List.getElem?_take_of_lt h]

lemma entryCond_frameTake (p : Params) (df : StratFrame) {m t : ℕ} (h : t < m) :
    entryCond p (frameTake m df) t = entryCond p df t := by
  simp only [entryCond, closeCol, frameTake, colAt_take h, List.getElem?_take_of_lt h]

lemma exitCond_frameTake (p : Params) (df : StratFrame) {m t : ℕ} (h : t < m) :
    exitCond p (frameTake m df) t = exitCond p df t := by
  simp only [exitCond, closeCol, frameTake, colAt_take h, List.getElem?_take_of_lt h]

lemma entry_take (p : Params) (df : StratFrame) (m : ℕ) :
    populate_entry_trend p (frameTake m df) = frameTake m (populate_entry_trend p df) := by
  apply StratFrame.ext
  · rfl
  · rfl
  · rfl
  · rfl
  · rfl
  · rfl
  · rfl
  · rfl
  · rfl
  · show (List.range (frameTake m df).candles.length).map
        (fun t => if entryCond p (frameTake m df) t then some 1
          else colAt (frameTake m df).enter_long t)
      = ((List.range df.candles.length).map
        (fun t => if entryCond p df t then some 1 else colAt df.enter_long t)).take m
    rw [← List.map_take, List.take_range]
    have hlen : (frameTake m df).candles.length = min m df.candles.length := by
      show (df.candles.take m).length = _
      rw [List.length_take]
    rw [hlen]
    apply List.map_congr_left
    intro t ht
    have htm : t < m := by
      have := List.mem_range.1 ht
      omega
    rw [entryCond_frameTake p df htm]
    have he : (frameTake m df).enter_long = df.enter_long.take m := rfl
    rw [he, colAt_take htm]
  · rfl

lemma exit_take (p : Params) (df : StratFrame) (m : ℕ) :
    populate_exit_trend p (frameTake m df) = frameTake m (populate_exit_trend p df) := by
  apply StratFrame.ext
  · rfl
  · rfl
  · rfl
  · rfl
  · rfl
  · rfl
  · rfl
  · rfl
  · rfl
  · rfl
  · show (List.range (frameTake m df).candles.length).map
        (fun t => if exitCond p (frameTake m df) t then some 1
          else colAt (frameTake m df).exit_long t)
      = ((List.range df.candles.length).map
        (fun t => if exitCond p df t then some 1 else colAt df.exit_long t)).take m
    rw [← List.map_take, List.take_range]
    have hlen : (frameTake m df).candles.length = min m df.candles.length := by
      show (df.candles.take m).length = _
      rw [List.length_take]
    rw [hlen]
    apply List.map_congr_left
    intro t ht
    have htm : t < m := by
      have := List.mem_range.1 ht
      omega
    rw [exitCond_frameTake p df htm]
    have he : (frameTake m df).exit_long = df.exit_long.take m := rfl
    rw [he, colAt_take htm]

/-- Claim C6 (causality / no look-ahead): truncating the candle series
immediately after position `t` and recomputing the whole pipeline yields
exactly the first `t+1` rows of every indicator and signal column of the
full computation — every derived value at a position `s ≤ t` depends only
on candle data at positions `≤ s ≤ t`. -/
theorem causality_truncation (p : Params) (cs : List Candle) (t : ℕ) :
    runAll p (cs.take (t + 1)) = frameTake (t + 1) (runAll p cs) := by
  unfold runAll
  rw [indicators_take, entry_take, exit_take]

end Steddock
